import Mathlib

/-!
Verification of the report-aggregation engine of `src/main.py`
(RedditStatusCheckerBot).

The Python source is shallowly embedded below.  Network interactions are
modelled by passing the outcome of each HTTP exchange as an explicit
argument: a value of type `Except Unit α` is `.ok a` when the awaited call
returned `a` and `.error ()` when the underlying client raised (transport
error, timeout, `raise_for_status`, and so on).  Timestamps are epoch
seconds as integers; `datetime.replace(minute=0, second=0, microsecond=0)`
on a UTC datetime is flooring the epoch value to a multiple of 3600.
Python truthiness tests on optional strings (`if not token: ...`) are
embedded through `isTruthy`.
-/

namespace RedditBot

/-- Python truthiness of an optional string: `None` and `""` are falsy. -/
def isTruthy : Option String → Bool
  | none => false
  | some s => s != ""

/-- One element of a `data.children` array: only `data.created_utc`
matters to the engine; `none` models a missing field. -/
structure Child where
  created_utc : Option Int
  deriving DecidableEq

/-- Floor an epoch timestamp to its containing UTC hour, as
`datetime.fromtimestamp(ts, tz=utc).replace(minute=0, second=0, microsecond=0)`
does in `main.py`. -/
def floorHour (ts : Int) : Int := ts / 3600 * 3600

/-- One iteration of the loop body of `_bucket_by_hour`
(src/main.py:135-141): skip an item without `created_utc`, otherwise
increment the bucket of its floored hour (`buckets.get(t, 0) + 1`). -/
def bucketStep (buckets : Int → Nat) (c : Child) : Int → Nat :=
  match c.created_utc with
  | none => buckets
  | some ts => fun h => if h = floorHour ts then buckets h + 1 else buckets h

/-- `_bucket_by_hour` (src/main.py:132-142): fold the items into a map
from hour start to count.  The Python dict with `.get(t, 0)` defaulting is
embedded as a total function `Int → Nat` that is `0` outside the
accumulated keys. -/
def _bucket_by_hour (children : List Child) : Int → Nat :=
  children.foldl bucketStep (fun _ => 0)

/-- Whether one item lands in the bucket of hour `h`. -/
def hourMatches (c : Child) (h : Int) : Bool :=
  match c.created_utc with
  | none => false
  | some ts => floorHour ts == h

/-- Number of items of the list whose floored creation hour is `h`
(specification of the value `_bucket_by_hour` stores at key `h`). -/
def countHour (items : List Child) (h : Int) : Nat :=
  (items.filter (fun c => hourMatches c h)).length

/-- The series-building `while cur <= now_dt` loop of
`fetch_reports_series_24h` (src/main.py:226-230): emit
`(cur, buckets.get(cur, 0))` and advance `cur` by one hour. -/
def seriesWhile (buckets : Int → Nat) (now_dt cur : Int) : List (Int × Nat) :=
  if h : cur ≤ now_dt then
    (cur, buckets cur) :: seriesWhile buckets now_dt (cur + 3600)
  else
    []
termination_by (now_dt + 3600 - cur).toNat
decreasing_by omega

/-- The bucketizing pipeline of `fetch_reports_series_24h`
(src/main.py:222-230): bucket the items by hour, floor `now` to the hour,
and build the dense series from `now_dt - 24h` up to `now_dt`. -/
def bucketize (now : Int) (items : List Child) : List (Int × Nat) :=
  let buckets := _bucket_by_hour items
  let now_dt := floorHour now
  let start := now_dt - 24 * 3600
  seriesWhile buckets now_dt start

/-- Hour boundary number `j` (0-based) of the 25-point window anchored at
`floorHour now`. -/
def windowHour (now : Int) (j : Nat) : Int :=
  floorHour now - 24 * 3600 + 3600 * (j : Int)

/-- The source-selection logic of `fetch_reports_series_24h`
(src/main.py:209-220).  `o` is the awaited outcome of `_oauth_search`,
`p` of `_fetch_public_search_last_24h`; each `try/except` turns a raised
error into `items = []`.  The second component counts how many times the
public fallback was invoked. -/
def fetchItems (o p : Except Unit (List Child)) : List Child × Nat :=
  let items := match o with
    | .ok xs => xs
    | .error _ => []
  if items.isEmpty then
    (match p with
      | .ok ys => ys
      | .error _ => [], 1)
  else
    (items, 0)

/-- `fetch_reports_series_24h` (src/main.py:199-230), parametrised by the
outcomes of its two source calls and by the current time. -/
def fetch_reports_series_24h (o p : Except Unit (List Child)) (now : Int) :
    List (Int × Nat) :=
  bucketize now (fetchItems o p).1

/-- The data `plot_reports` extracts from the points before rendering;
the rendered PNG buffer itself is outside the model. -/
structure PlotBuf where
  xs : List Int
  ys : List Nat
  deriving DecidableEq

/-- `plot_reports` (src/main.py:234-251): `None` on an empty point list,
otherwise a buffer built from the xs/ys of the points. -/
def plot_reports (points : List (Int × Nat)) : Option PlotBuf :=
  if points.isEmpty then none
  else some ⟨points.map Prod.fst, points.map Prod.snd⟩

/-- A parsed response of the public `search.json` endpoint: HTTP status
and the `data.children` array (missing JSON fields already defaulted to
`[]` as by `(r.json() or {}).get("data", {}).get("children", [])`). -/
structure PubResponse where
  status : Int
  children : List Child
  deriving DecidableEq

/-- `_fetch_public_search_last_24h` (src/main.py:144-158), parametrised by
the outcome of the single `c.get` call: a raised transport error
propagates (there is no `try` in the function), a non-200 status returns
`[]`, otherwise the children are returned. -/
def _fetch_public_search_last_24h (resp : Except Unit PubResponse) :
    Except Unit (List Child) :=
  match resp with
  | .error e => .error e
  | .ok r => if r.status != 200 then .ok [] else .ok r.children

/-- The mutable token cache `_token_cache` (src/main.py:110). -/
structure TokenCache where
  access_token : Option String
  exp : Int
  deriving DecidableEq

/-- Initial value `{"access_token": None, "exp": 0.0}` of the cache. -/
def _token_cache_init : TokenCache := ⟨none, 0⟩

/-- Parsed body of a successful token exchange: `access_token` is
mandatory (`j["access_token"]`), `expires_in` defaults to 3600
(`j.get("expires_in", 3600)`). -/
structure ExchangeResp where
  access_token : String
  expires_in : Option Int
  deriving DecidableEq

/-- `get_reddit_token` (src/main.py:112-128), parametrised by the two
configured credentials, the current `time.time()` and the outcome of the
token-exchange POST.  Returns the result (`.error` when the exchange
raised), the cache after the call, and the number of network exchanges
performed (0 or 1). -/
def get_reddit_token (clientId clientSecret : Option String) (now : Int)
    (exchange : Except Unit ExchangeResp) (cache : TokenCache) :
    Except Unit (Option String × TokenCache) × Nat :=
  if !(isTruthy clientId && isTruthy clientSecret) then
    (.ok (none, cache), 0)
  else if isTruthy cache.access_token && now < cache.exp - 60 then
    (.ok (cache.access_token, cache), 0)
  else
    match exchange with
    | .error e => (.error e, 1)
    | .ok j =>
      (.ok (some j.access_token,
            ⟨some j.access_token, now + j.expires_in.getD 3600⟩), 1)

/-- A parsed page of the OAuth search endpoint: HTTP status, the
`data.children` array and the continuation cursor `data.after`. -/
structure Page where
  status : Int
  children : List Child
  after : Option String
  deriving DecidableEq

/-- The query parameters of one OAuth search request that the claims talk
about: `limit`, `type` and the optional `after` cursor. -/
structure OauthParams where
  limit : Nat
  typ : String
  after : Option String
  deriving DecidableEq

/-- Responses of the OAuth search endpoint for one item type, indexed by
the number of requests already made for that type. -/
def PageOracle : Type := Nat → Except Unit Page

/-- The `for _ in range(6)` pagination loop of `_oauth_search`
(src/main.py:176-196) for one item type: at most `remaining` further
requests, `idx` requests already made, current cursor `after`, items
accumulated so far in `acc`.  Returns the log of requests issued for this
type and either the accumulated items or the raised transport error. -/
def oauthPages (oracle : PageOracle) (t : String) :
    Nat → Nat → Option String → List Child →
    List OauthParams × Except Unit (List Child)
  | 0, _, _, acc => ([], .ok acc)
  | remaining + 1, idx, after, acc =>
    let req : OauthParams :=
      ⟨100, t, if isTruthy after then after else none⟩
    match oracle idx with
    | .error e => ([req], .error e)
    | .ok pg =>
      if pg.status != 200 then
        ([req], .ok acc)
      else
        let acc2 := acc ++ pg.children
        if isTruthy pg.after then
          let rest := oauthPages oracle t remaining (idx + 1) pg.after acc2
          (req :: rest.1, rest.2)
        else
          ([req], .ok acc2)

/-- The `for t in types` loop of `_oauth_search` (src/main.py:174-196):
the `items` list is shared across types; a raised transport error inside
one type aborts the whole loop (and the whole function). -/
def oauthTypes (oracle : String → PageOracle) :
    List String → List Child →
    List (String × List OauthParams) × Except Unit (List Child)
  | [], acc => ([], .ok acc)
  | t :: rest, acc =>
    let this := oauthPages (oracle t) t 6 0 none acc
    match this.2 with
    | .error e => ([(t, this.1)], .error e)
    | .ok acc2 =>
      let more := oauthTypes oracle rest acc2
      ((t, this.1) :: more.1, more.2)

/-- `_oauth_search` (src/main.py:160-197), parametrised by the outcome of
`get_reddit_token` and by the per-type page oracle.  A raised token
exchange propagates; a falsy token returns `[]` at once. -/
def _oauth_search (tokenRes : Except Unit (Option String))
    (oracle : String → PageOracle) (types : List String) :
    List (String × List OauthParams) × Except Unit (List Child) :=
  match tokenRes with
  | .error e => ([], .error e)
  | .ok tok =>
    if !isTruthy tok then ([], .ok [])
    else oauthTypes oracle types []

/-- The two interface languages produced by `_lang` (src/main.py:96-98). -/
inductive Lang where
  | ru
  | en
  deriving DecidableEq

/-- The localisation entries of `LANGS` (src/main.py:50-85) that the
status handler uses. -/
structure LangPack where
  status_ok : String
  status_down : String
  no_data : String
  deriving DecidableEq

/-- The `LANGS` table restricted to the fields above. -/
def LANGS : Lang → LangPack
  | .ru => ⟨"✅ Reddit работает нормально.", "⚠️ Проблемы на Reddit!",
            "Пока нет данных / No data yet."⟩
  | .en => ⟨"✅ Reddit is operating normally.", "⚠️ Reddit seems to be having issues!",
            "No data yet."⟩

/-- Substring search on char lists (the Python `in` operator on strings). -/
def subSearch (needle : List Char) (hay : List Char) : Bool :=
  match hay with
  | [] => needle.isEmpty
  | _ :: rest => needle.isPrefixOf hay || subSearch needle rest

/-- `needle in hay` for strings. -/
def hasSubstr (hay needle : String) : Bool :=
  subSearch needle.data hay.data

/-- The status-derivation block of `status_cmd` (src/main.py:263-270),
parametrised by the outcome of `fetch_status_summary()` followed by the
`data["status"]["description"]` extraction (any raised step lands in the
`except` branch).  Returns `(ok, description)`. -/
def status_cmd_view (fetch : Except Unit String) : Bool × String :=
  match fetch with
  | .ok description => (hasSubstr description "Operational", description)
  | .error _ => (true, "Unknown")

/-- The first caption line chosen by `status_cmd` (src/main.py:283) and
the description it reports. -/
def status_caption_head (fetch : Except Unit String) (lang : Lang) :
    String × String :=
  let v := status_cmd_view fetch
  ((if v.1 then (LANGS lang).status_ok else (LANGS lang).status_down), v.2)

/-- Modelled from the spec: src/main.py contains no Status Poller, so its
transition detection (§4.6 of the specification) is modelled from the
specification text: `transitioned = (AlertState is set) and
(description != AlertState)`, and AlertState is updated to the new
description unconditionally after the comparison. -/
def pollTransition (alertState : Option String) (description : String) :
    Bool × Option String :=
  (match alertState with
    | none => false
    | some s => decide (description ≠ s),
   some description)

/-- Modelled from the spec: run the poller transition detection over a
sequence of fetched descriptions, starting from a given AlertState, and
collect the `transitioned` flag of each cycle. -/
def pollRun (alertState : Option String) : List String → List Bool
  | [] => []
  | d :: rest =>
    let step := pollTransition alertState d
    step.1 :: pollRun step.2 rest

/-- Whether an item has a creation time whose floored hour lies in the
25-hour window anchored at `floorHour now`; equivalently, whether the raw
timestamp lies in `[floorHour now − 24h, floorHour now + 1h)`. -/
def inWindow (now : Int) (c : Child) : Bool :=
  match c.created_utc with
  | none => false
  | some ts => decide (floorHour now - 24 * 3600 ≤ ts ∧ ts < floorHour now + 3600)

/-- Whether an item has a creation time whose floored hour is one of the
listed hours. -/
def hourIn (hs : List Int) (c : Child) : Bool :=
  match c.created_utc with
  | none => false
  | some ts => hs.contains (floorHour ts)

/-- The items one type contributes when its pagination runs on its own
(starting from an empty accumulator); `[]` when the run raises. -/
def oauthItemsOf (o : PageOracle) (t : String) : List Child :=
  match (oauthPages o t 6 0 none []).2 with
  | .ok l => l
  | .error _ => []

/-- An environment in which every request for item type `"link"` hits a
transport error while every other item type answers one full page. -/
def failLinkOracle : String → PageOracle := fun t _ =>
  match t with
  | "link" => .error ()
  | _ => .ok ⟨200, [⟨some 1⟩], none⟩

/-- An environment in which every request of every item type answers one
page with a single item and no continuation cursor. -/
def onePageOracle : String → PageOracle := fun _ _ =>
  .ok ⟨200, [⟨some 2⟩], none⟩

/-- An environment that always answers a full page carrying a
continuation cursor. -/
def cursorOracle : PageOracle := fun _ =>
  .ok ⟨200, [⟨some 2⟩], some "c"⟩

lemma seriesWhile_step (b : Int → Nat) (n c : Int) :
    seriesWhile b n c = if c ≤ n then (c, b c) :: seriesWhile b n (c + 3600) else [] := by
  rw [seriesWhile]
  split <;> simp

lemma seriesWhile_char (k : Nat) : ∀ (b : Int → Nat) (n c : Int),
    c + 3600 * (k : Int) = n →
    seriesWhile b n c =
      (List.range (k + 1)).map
        (fun (j : Nat) => (c + 3600 * (j : Int), b (c + 3600 * (j : Int)))) := by
  induction k with
  | zero =>
    intro b n c hc
    have hcn : c = n := by push_cast at hc; omega
    subst hcn
    rw [seriesWhile_step, if_pos le_rfl, seriesWhile_step, if_neg (by omega)]
    rw [show (List.range 1) = [0] by rfl, List.map_cons, List.map_nil]
    norm_num
  | succ k ih =>
    intro b n c hc
    have hle : c ≤ n := by push_cast at hc; omega
    rw [seriesWhile_step, if_pos hle]
    rw [ih b n (c + 3600) (by push_cast at hc ⊢; omega)]
    conv_rhs => rw [List.range_succ_eq_map, List.map_cons, List.map_map]
    refine congr_arg₂ List.cons ?_ ?_
    · norm_num
    · refine List.map_congr_left ?_
      intro j hj
      have harg : c + 3600 + 3600 * (j : Int) = c + 3600 * (((j + 1 : Nat) : Int)) := by
        push_cast
        ring
      simp only [Function.comp_apply, Nat.succ_eq_add_one, harg]

lemma countHour_cons (c : Child) (rest : List Child) (h : Int) :
    countHour (c :: rest) h = (if hourMatches c h then 1 else 0) + countHour rest h := by
  simp only [countHour, List.filter_cons]
  split <;> simp [Nat.add_comm]

lemma bucket_fold (items : List Child) : ∀ (b : Int → Nat) (h : Int),
    (items.foldl bucketStep b) h = b h + countHour items h := by
  induction items with
  | nil =>
    intro b h
    simp [countHour]
  | cons c rest ih =>
    intro b h
    simp only [List.foldl_cons]
    rw [ih, countHour_cons]
    have hb : bucketStep b c h = b h + (if hourMatches c h then 1 else 0) := by
      unfold bucketStep hourMatches
      cases hcc : c.created_utc with
      | none => simp
      | some ts =>
        by_cases hts : h = floorHour ts
        · simp [hts]
        · have : ¬ (floorHour ts == h) = true := by
            simp [beq_iff_eq]
            exact fun he => hts he.symm
          simp [hts, this]
    rw [hb]
    omega

lemma bucket_eq_countHour (items : List Child) (h : Int) :
    _bucket_by_hour items h = countHour items h := by
  have := bucket_fold items (fun _ => 0) h
  simpa [_bucket_by_hour] using this

lemma bucketize_char (now : Int) (items : List Child) :
    bucketize now items =
      (List.range 25).map (fun j =>
        (windowHour now j, _bucket_by_hour items (windowHour now j))) := by
  unfold bucketize
  rw [seriesWhile_char 24 (_bucket_by_hour items) (floorHour now)
        (floorHour now - 24 * 3600) (by push_cast; ring)]
  rfl

lemma bucketize_len (now : Int) (items : List Child) :
    (bucketize now items).length = 25 := by
  rw [bucketize_char]
  simp

lemma bucketize_get? (now : Int) (items : List Child) (j : Nat) (hj : j < 25) :
    (bucketize now items).get? j
      = some (windowHour now j, countHour items (windowHour now j)) := by
  rw [bucketize_char, List.get?_map, List.get?_range hj]
  simp [bucket_eq_countHour]

lemma sum_map_addf {α : Type} (f g : α → Nat) (l : List α) :
    (l.map (fun x => f x + g x)).sum = (l.map f).sum + (l.map g).sum := by
  induction l with
  | nil => simp
  | cons a l ih =>
    simp only [List.map_cons, List.sum_cons, ih]
    omega

lemma indicator_sum (x : Int) : ∀ (hs : List Int), hs.Nodup →
    (hs.map (fun h => if x = h then 1 else 0)).sum
      = (if hs.contains x then 1 else 0) := by
  intro hs
  induction hs with
  | nil => simp
  | cons h hs ih =>
    intro hnd
    rw [List.nodup_cons] at hnd
    simp only [List.map_cons, List.sum_cons, List.contains_cons]
    by_cases hx : x = h
    · subst hx
      have hnc : hs.contains x = false := by
        by_contra hcon
        simp only [Bool.not_eq_false, List.contains_iff_exists_mem_beq] at hcon
        obtain ⟨y, hy, hxy⟩ := hcon
        rw [beq_iff_eq] at hxy
        exact hnd.1 (hxy ▸ hy)
      simp [ih hnd.2, hnc]
      exact hnd.1
    · have hb : (x == h) = false := by simp [hx]
      simp [hx, hb, ih hnd.2]

lemma sum_countHour (hs : List Int) (hnd : hs.Nodup) : ∀ (items : List Child),
    (hs.map (fun h => countHour items h)).sum
      = (items.filter (hourIn hs)).length := by
  intro items
  induction items with
  | nil => simp [countHour]
  | cons c rest ih =>
    have hmap : hs.map (fun h => countHour (c :: rest) h)
        = hs.map (fun h => (if hourMatches c h then 1 else 0) + countHour rest h) := by
      simp [countHour_cons]
    rw [hmap, sum_map_addf, ih, List.filter_cons]
    cases hcu : c.created_utc with
    | none =>
      have hm : ∀ h, hourMatches c h = false := by
        intro h
        simp [hourMatches, hcu]
      have hin : hourIn hs c = false := by
        simp [hourIn, hcu]
      simp [hm, hin]
    | some ts =>
      have hm : ∀ h, hourMatches c h = (floorHour ts == h) := by
        intro h
        simp [hourMatches, hcu]
      have hin : hourIn hs c = hs.contains (floorHour ts) := by
        simp [hourIn, hcu]
      have hsum : (hs.map (fun h => if hourMatches c h then 1 else 0)).sum
          = if hs.contains (floorHour ts) then 1 else 0 := by
        have hind := indicator_sum (floorHour ts) hs hnd
        calc (hs.map (fun h => if hourMatches c h then 1 else 0)).sum
            = (hs.map (fun h => if floorHour ts = h then 1 else 0)).sum := by
              refine congrArg List.sum ?_
              refine List.map_congr_left ?_
              intro h hh
              rw [hm h]
              by_cases hfe : floorHour ts = h
              · simp [hfe]
              · simp [hfe]
          _ = if hs.contains (floorHour ts) then 1 else 0 := hind
      rw [hsum, hin]
      by_cases hmem : floorHour ts ∈ hs
      · have hcont : hs.contains (floorHour ts) = true := by
          simp [List.contains]
          exact hmem
        rw [hcont]
        simp only [if_true]
        rw [List.length_cons]
        omega
      · have hcont : hs.contains (floorHour ts) = false := by
          simp [List.contains]
          exact hmem
        rw [hcont]
        simp

lemma windowHours_nodup (now : Int) :
    ((List.range 25).map (windowHour now)).Nodup := by
  refine List.Nodup.map ?_ (List.nodup_range 25)
  intro a b hab
  simp only [windowHour] at hab
  omega

lemma hourIn_window (now : Int) (c : Child) :
    hourIn ((List.range 25).map (windowHour now)) c = inWindow now c := by
  cases hcu : c.created_utc with
  | none => simp [hourIn, inWindow, hcu]
  | some ts =>
    simp only [hourIn, inWindow, hcu]
    rw [Bool.eq_iff_iff]
    rw [List.contains_iff_exists_mem_beq, decide_eq_true_iff]
    constructor
    · rintro ⟨h, hmem, hbeq⟩
      rw [beq_iff_eq] at hbeq
      simp only [List.mem_map, List.mem_range] at hmem
      obtain ⟨j, hj, hwj⟩ := hmem
      subst hbeq
      simp only [windowHour, floorHour] at hwj ⊢
      omega
    · rintro ⟨h1, h2⟩
      refine ⟨floorHour ts, ?_, by simp⟩
      simp only [List.mem_map, List.mem_range]
      refine ⟨(ts / 3600 - (now / 3600 - 24)).toNat, ?_, ?_⟩
      · simp only [floorHour] at h1 h2
        omega
      · simp only [windowHour, floorHour] at h1 h2 ⊢
        omega

lemma bucketize_sum (now : Int) (items : List Child) :
    ((bucketize now items).map Prod.snd).sum
      = (items.filter (inWindow now)).length := by
  rw [bucketize_char, List.map_map]
  have h1 : (List.range 25).map
        (Prod.snd ∘ fun (j : Nat) =>
          (windowHour now j, _bucket_by_hour items (windowHour now j)))
      = ((List.range 25).map (windowHour now)).map
          (fun h => countHour items h) := by
    rw [List.map_map]
    refine List.map_congr_left ?_
    intro j hj
    simp [Function.comp, bucket_eq_countHour]
  rw [h1, sum_countHour _ (windowHours_nodup now) items]
  refine congrArg List.length ?_
  refine List.filter_congr ?_
  intro c hc
  exact hourIn_window now c

/-- Claim C1 is false as stated: with the current time at epoch 172800
and the single input item created at epoch 0 (more than 24 hours before
the window), the series counts sum to 0 while one input item has a
non-null creation time. -/
theorem bucketize_sum_counterexample :
    ¬ (((bucketize 172800 [⟨some 0⟩]).map Prod.snd).sum
        = ([(⟨some 0⟩ : Child)].filter (fun c => c.created_utc.isSome)).length) := by
  rw [bucketize_char]
  decide

/-- Claim C1 (amended): for every current time and input item list, the
bucketizing pipeline (`_bucket_by_hour` then the series loop of
`fetch_reports_series_24h`) returns exactly 25 buckets on contiguous
hourly boundaries ending at the floored current hour, and the bucket
counts sum to the number of input items with a non-null creation time
whose floored hour falls inside that 25-hour window (items bucketed
outside the window are never read by the series loop). -/
theorem bucketize_density (now : Int) (items : List Child) :
    (bucketize now items).length = 25 ∧
    (∀ j : Nat, j < 25 →
      (bucketize now items).get? j
        = some (windowHour now j, countHour items (windowHour now j))) ∧
    windowHour now 24 = floorHour now ∧
    ((bucketize now items).map Prod.snd).sum
      = (items.filter (inWindow now)).length := by
  refine ⟨bucketize_len now items, ?_, ?_, bucketize_sum now items⟩
  · intro j hj
    exact bucketize_get? now items j hj
  · simp only [windowHour]
    norm_num

/-- Witness for C1 (amended) at a concrete input: the last bucket of the
series for `now = 90000` and one in-window item. -/
theorem bucketize_density_witness :
    (bucketize 90000 [⟨some 3700⟩]).get? 24
      = some (windowHour 90000 24, countHour [⟨some 3700⟩] (windowHour 90000 24)) :=
  (bucketize_density 90000 [⟨some 3700⟩]).2.1 24 (by decide)

/-- Claim C2: in `fetch_reports_series_24h`, a non-empty authenticated
result means the public fallback is never invoked, and an empty or raised
authenticated result means the public fallback is invoked exactly once. -/
theorem fetchItems_fallback (o p : Except Unit (List Child)) :
    (∀ xs, o = .ok xs → xs ≠ [] → (fetchItems o p).2 = 0) ∧
    ((o = .ok [] ∨ o = .error ()) → (fetchItems o p).2 = 1) := by
  constructor
  · rintro xs rfl hne
    cases xs with
    | nil => exact absurd rfl hne
    | cons a l => rfl
  · rintro (rfl | rfl) <;> rfl

/-- Witness for C2 at concrete source outcomes. -/
theorem fetchItems_fallback_witness :
    (fetchItems (.ok [⟨some 1⟩]) (.ok [])).2 = 0 ∧
    (fetchItems (.error ()) (.ok [])).2 = 1 :=
  ⟨(fetchItems_fallback (.ok [⟨some 1⟩]) (.ok [])).1 [⟨some 1⟩] rfl (by decide),
   (fetchItems_fallback (.error ()) (.ok [])).2 (Or.inr rfl)⟩

/-- Claim C3 is false as stated: a transport error in the single GET of
the public fallback propagates as a raised error out of
`_fetch_public_search_last_24h` (the function has no try/except), rather
than yielding an empty sequence. -/
theorem public_search_counterexample :
    _fetch_public_search_last_24h (.error ()) = .error () ∧
    _fetch_public_search_last_24h (.error ()) ≠ .ok [] := by
  refine ⟨rfl, ?_⟩
  intro h
  exact Except.noConfusion h

/-- Claim C3 (amended): the public fallback returns an empty sequence for
every non-success response; a transport error, however, raises to its
caller, and its only caller (`fetch_reports_series_24h`) catches the
raise and treats it as an empty result. -/
theorem public_search_degrade (r : PubResponse) (e : Unit) :
    (r.status ≠ 200 → _fetch_public_search_last_24h (.ok r) = .ok []) ∧
    _fetch_public_search_last_24h (.error e) = .error e ∧
    fetchItems (.ok []) (_fetch_public_search_last_24h (.error e)) = ([], 1) := by
  refine ⟨?_, rfl, rfl⟩
  intro hst
  simp [_fetch_public_search_last_24h, hst]

/-- Witness for C3 (amended): a 500 response yields an empty result. -/
theorem public_search_degrade_witness :
    _fetch_public_search_last_24h (.ok ⟨500, [⟨some 1⟩]⟩) = .ok [] :=
  (public_search_degrade ⟨500, [⟨some 1⟩]⟩ ()).1 (by decide)

/-- Claim C8: each poll cycle sets `transitioned` exactly when the stored
AlertState is set and the new description differs, updates AlertState
unconditionally, and on the snapshot sequence
[Operational, Operational, Degraded, Degraded, Operational] from an unset
AlertState the flags are [false, false, true, false, true]. -/
theorem poll_transitions :
    (∀ (st : Option String) (d : String), (pollTransition st d).2 = some d) ∧
    (∀ (s d : String), (pollTransition (some s) d).1 = decide (d ≠ s)) ∧
    (∀ d : String, (pollTransition none d).1 = false) ∧
    pollRun none ["Operational", "Operational", "Degraded", "Degraded", "Operational"]
      = [false, false, true, false, true] := by
  refine ⟨fun st d => rfl, fun s d => rfl, fun d => rfl, by decide⟩

/-- Claim C9: when the status fetch raises, `status_cmd` reports the
service as operational (the status-ok caption line) with the description
string "Unknown". -/
theorem status_unknown_ok (e : Unit) (lang : Lang) :
    status_cmd_view (.error e) = (true, "Unknown") ∧
    status_caption_head (.error e) lang = ((LANGS lang).status_ok, "Unknown") := by
  cases lang <;> exact ⟨rfl, rfl⟩

/-- Claim C10: `fetch_reports_series_24h` always returns 25 points
regardless of source outcomes, so `plot_reports` on its result is never
`None` and the no-data reply branch of the handlers is unreachable. -/
theorem series_never_empty (o p : Except Unit (List Child)) (now : Int) :
    (fetch_reports_series_24h o p now).length = 25 ∧
    fetch_reports_series_24h o p now ≠ [] ∧
    (plot_reports (fetch_reports_series_24h o p now)).isSome = true := by
  have hlen : (fetch_reports_series_24h o p now).length = 25 :=
    bucketize_len now (fetchItems o p).1
  refine ⟨hlen, ?_, ?_⟩
  · intro hnil
    rw [hnil] at hlen
    simp at hlen
  · have hne : (fetch_reports_series_24h o p now).isEmpty = false := by
      cases hs : fetch_reports_series_24h o p now with
      | nil => rw [hs] at hlen; simp at hlen
      | cons a l => simp
    simp [plot_reports, hne]

/-- Claim C4: `get_reddit_token` returns `None` at once without a network
exchange when no client credentials are configured; with a cached truthy
token and `now < exp − 60` it returns the cached token with no exchange,
so two calls inside the validity window perform exactly one exchange in
total; otherwise it performs the exchange and stores the token with
expiry `now + expires_in`. -/
theorem get_reddit_token_cache (clientId clientSecret : Option String)
    (now now2 : Int) (cache : TokenCache)
    (exchange exchange2 : Except Unit ExchangeResp) (j : ExchangeResp) :
    ((isTruthy clientId && isTruthy clientSecret) = false →
      get_reddit_token clientId clientSecret now exchange cache
        = (.ok (none, cache), 0)) ∧
    (∀ tok, (isTruthy clientId && isTruthy clientSecret) = true →
      cache.access_token = some tok → tok ≠ "" → now < cache.exp - 60 →
      get_reddit_token clientId clientSecret now exchange cache
        = (.ok (some tok, cache), 0)) ∧
    ((isTruthy clientId && isTruthy clientSecret) = true →
      (isTruthy cache.access_token && decide (now < cache.exp - 60)) = false →
      get_reddit_token clientId clientSecret now (.ok j) cache
        = (.ok (some j.access_token,
                ⟨some j.access_token, now + j.expires_in.getD 3600⟩), 1)) ∧
    ((isTruthy clientId && isTruthy clientSecret) = true →
      j.access_token ≠ "" → now2 < now + j.expires_in.getD 3600 - 60 →
      get_reddit_token clientId clientSecret now (.ok j) _token_cache_init
          = (.ok (some j.access_token,
                  ⟨some j.access_token, now + j.expires_in.getD 3600⟩), 1) ∧
      get_reddit_token clientId clientSecret now2 exchange2
          ⟨some j.access_token, now + j.expires_in.getD 3600⟩
        = (.ok (some j.access_token,
                ⟨some j.access_token, now + j.expires_in.getD 3600⟩), 0)) := by
  refine ⟨?_, ?_, ?_, ?_⟩
  · intro hcfg
    simp [get_reddit_token, hcfg]
  · intro tok hcfg htok hne hlt
    have htr : isTruthy (some tok) = true := by
      simp [isTruthy, hne]
    simp [get_reddit_token, hcfg, htok, htr, hlt]
  · intro hcfg hnc
    simp [get_reddit_token, hcfg, hnc]
  · intro hcfg hne hlt
    have h0 : isTruthy none = false := rfl
    constructor
    · simp [get_reddit_token, hcfg, _token_cache_init, h0]
    · have htr : isTruthy (some j.access_token) = true := by
        simp [isTruthy, hne]
      simp [get_reddit_token, hcfg, htr, hlt]

/-- Witness for C4 at concrete credentials, times and exchange body. -/
theorem get_reddit_token_cache_witness :
    get_reddit_token (some "i") (some "s") 0 (.ok ⟨"tok", some 3600⟩) _token_cache_init
        = (.ok (some "tok", ⟨some "tok", 3600⟩), 1) ∧
    get_reddit_token (some "i") (some "s") 100 (.error ()) ⟨some "tok", 3600⟩
        = (.ok (some "tok", ⟨some "tok", 3600⟩), 0) := by
  have h := (get_reddit_token_cache (some "i") (some "s") 0 100 _token_cache_init
      (.ok ⟨"tok", some 3600⟩) (.error ()) ⟨"tok", some 3600⟩).2.2.2
      (by decide) (by decide) (by decide)
  exact h

/-- Claim C5: every series returned by the aggregator has adjacent bucket
hour-starts exactly one hour apart, has non-negative integer counts, and
contains every window hour, with count 0 when no raw item fell in it. -/
theorem series_invariant (o p : Except Unit (List Child)) (now : Int) :
    (∀ (i : Nat) (x y : Int × Nat),
      (fetch_reports_series_24h o p now).get? i = some x →
      (fetch_reports_series_24h o p now).get? (i + 1) = some y →
      y.1 - x.1 = 3600) ∧
    (∀ pt ∈ fetch_reports_series_24h o p now, 0 ≤ (pt.2 : Int)) ∧
    (∀ j : Nat, j < 25 →
      countHour (fetchItems o p).1 (windowHour now j) = 0 →
      (windowHour now j, 0) ∈ fetch_reports_series_24h o p now) := by
  have hlen : (fetch_reports_series_24h o p now).length = 25 :=
    bucketize_len now (fetchItems o p).1
  refine ⟨?_, ?_, ?_⟩
  · intro i x y hx hy
    have hi1 : i + 1 < 25 := by
      by_contra hge
      have hnone : (fetch_reports_series_24h o p now).get? (i + 1) = none := by
        apply List.get?_eq_none.mpr
        omega
      rw [hnone] at hy
      exact Option.noConfusion hy
    have hi : i < 25 := by omega
    rw [show fetch_reports_series_24h o p now = bucketize now (fetchItems o p).1 from rfl]
      at hx hy
    rw [bucketize_get? now (fetchItems o p).1 i hi] at hx
    rw [bucketize_get? now (fetchItems o p).1 (i + 1) hi1] at hy
    have hx' : x = (windowHour now i, countHour (fetchItems o p).1 (windowHour now i)) :=
      (Option.some_injective _ hx).symm
    have hy' : y = (windowHour now (i + 1),
        countHour (fetchItems o p).1 (windowHour now (i + 1))) :=
      (Option.some_injective _ hy).symm
    rw [hx', hy']
    simp only [windowHour]
    push_cast
    ring
  · intro pt hpt
    exact Int.natCast_nonneg pt.2
  · intro j hj hcount
    have hget : (fetch_reports_series_24h o p now).get? j
        = some (windowHour now j, countHour (fetchItems o p).1 (windowHour now j)) :=
      bucketize_get? now (fetchItems o p).1 j hj
    rw [hcount] at hget
    exact List.get?_mem hget

/-- Witness for C5: adjacent-bucket spacing and zero-count presence on
the all-empty concrete run. -/
theorem series_invariant_witness :
    (windowHour 0 24, 0) ∈ fetch_reports_series_24h (.ok []) (.ok []) 0 ∧
    ((-82800 : Int), (0 : Nat)).1 - ((-86400 : Int), (0 : Nat)).1 = 3600 := by
  constructor
  · exact (series_invariant (.ok []) (.ok []) 0).2.2 24 (by decide) (by decide)
  · refine (series_invariant (.ok []) (.ok []) 0).1 0 (-86400, 0) (-82800, 0) ?_ ?_
    · show (bucketize 0 (fetchItems (.ok []) (.ok [])).1).get? 0 = some (-86400, 0)
      rw [bucketize_get? 0 (fetchItems (.ok []) (.ok [])).1 0 (by norm_num)]
      decide
    · show (bucketize 0 (fetchItems (.ok []) (.ok [])).1).get? 1 = some (-82800, 0)
      rw [bucketize_get? 0 (fetchItems (.ok []) (.ok [])).1 1 (by norm_num)]
      decide

lemma oauthPages_append (oracle : PageOracle) (t : String) :
    ∀ (r idx : Nat) (after : Option String) (acc : List Child),
      (oauthPages oracle t r idx after acc).1
        = (oauthPages oracle t r idx after []).1 ∧
      (oauthPages oracle t r idx after acc).2
        = (oauthPages oracle t r idx after []).2.map (fun l => acc ++ l) := by
  intro r
  induction r with
  | zero =>
    intro idx after acc
    simp [oauthPages, Except.map]
  | succ r ih =>
    intro idx after acc
    rcases horacle : oracle idx with e | pg
    · simp [oauthPages, horacle, Except.map]
    · by_cases hst : (pg.status != 200) = true
      · simp [oauthPages, horacle, hst, Except.map]
      · by_cases haf : isTruthy pg.after = true
        · simp only [oauthPages, horacle, hst, haf, Bool.false_eq_true, if_false,
            if_true, List.nil_append]
          obtain ⟨ha1, ha2⟩ := ih (idx + 1) pg.after (acc ++ pg.children)
          obtain ⟨hb1, hb2⟩ := ih (idx + 1) pg.after pg.children
          refine ⟨by rw [ha1, hb1], ?_⟩
          rw [ha2, hb2]
          cases hbase : (oauthPages oracle t r (idx + 1) pg.after []).2 with
          | error e => simp [Except.map]
          | ok l => simp [Except.map, List.append_assoc]
        · simp [oauthPages, horacle, hst, haf, Except.map]

lemma oauthPages_allok (oracle : PageOracle)
    (hok : ∀ k, ∃ pg, oracle k = .ok pg) (t : String) :
    ∀ (r idx : Nat) (after : Option String) (acc : List Child),
      ∃ l, (oauthPages oracle t r idx after acc).2 = .ok l := by
  intro r
  induction r with
  | zero =>
    intro idx after acc
    exact ⟨acc, rfl⟩
  | succ r ih =>
    intro idx after acc
    obtain ⟨pg, hpg⟩ := hok idx
    by_cases hst : (pg.status != 200) = true
    · exact ⟨acc, by simp [oauthPages, hpg, hst]⟩
    · by_cases haf : isTruthy pg.after = true
      · obtain ⟨l, hl⟩ := ih (idx + 1) pg.after (acc ++ pg.children)
        refine ⟨l, ?_⟩
        simp only [oauthPages, hpg, hst, haf, Bool.false_eq_true, if_false, if_true]
        exact hl
      · exact ⟨acc ++ pg.children, by simp [oauthPages, hpg, hst, haf]⟩

lemma oauthPages_ok_items (oracle : PageOracle)
    (hok : ∀ k, ∃ pg, oracle k = .ok pg) (t : String) (acc : List Child) :
    (oauthPages oracle t 6 0 none acc).2 = .ok (acc ++ oauthItemsOf oracle t) := by
  obtain ⟨l, hl⟩ := oauthPages_allok oracle hok t 6 0 none []
  have happ := (oauthPages_append oracle t 6 0 none acc).2
  rw [happ, hl]
  simp [Except.map, oauthItemsOf, hl]

lemma oauthTypes_allok (oracle : String → PageOracle)
    (hok : ∀ t k, ∃ pg, oracle t k = .ok pg) :
    ∀ (types : List String) (acc : List Child),
      (oauthTypes oracle types acc).2
        = .ok (acc ++ (types.map (fun t => oauthItemsOf (oracle t) t)).flatten) := by
  intro types
  induction types with
  | nil =>
    intro acc
    simp [oauthTypes]
  | cons t rest ih =>
    intro acc
    have h1 : (oauthPages (oracle t) t 6 0 none acc).2
        = .ok (acc ++ oauthItemsOf (oracle t) t) :=
      oauthPages_ok_items (oracle t) (hok t) t acc
    simp only [oauthTypes, h1]
    rw [ih]
    simp [List.append_assoc]

/-- Claim C6 is false as stated: with a transport error on the first item
type, `_oauth_search` aborts with a raised error instead of returning the
partial results of the second item type (which, queried alone, would
contribute one item). -/
theorem oauth_search_counterexample :
    (_oauth_search (.ok (some "tok")) failLinkOracle ["link", "self"]).2 = .error () ∧
    (_oauth_search (.ok (some "tok")) failLinkOracle ["self"]).2 = .ok [⟨some 1⟩] :=
  ⟨rfl, rfl⟩

/-- Claim C6 (amended): when no credential is configured the call returns
an empty sequence; when no request raises (every response arrives, of any
status), a non-success response on one item type only truncates that
type's own contribution and the other types' partial results are still
returned, the total being the concatenation of the per-type results.  A
raised transport error, by contrast, aborts the whole call (see the
counterexample). -/
theorem oauth_search_independent (oracle : String → PageOracle)
    (types : List String) (tok : String) :
    _oauth_search (.ok none) oracle types = ([], .ok []) ∧
    (tok ≠ "" → (∀ t k, ∃ pg, oracle t k = .ok pg) →
      (_oauth_search (.ok (some tok)) oracle types).2
        = .ok ((types.map (fun t => oauthItemsOf (oracle t) t)).flatten)) := by
  constructor
  · rfl
  · intro htok hok
    have htr : isTruthy (some tok) = true := by
      simp [isTruthy, htok]
    simp only [_oauth_search, htr, Bool.not_true, Bool.false_eq_true, if_false]
    rw [oauthTypes_allok oracle hok types []]
    simp

/-- Witness for C6 (amended): two item types, one full page each. -/
theorem oauth_search_independent_witness :
    (_oauth_search (.ok (some "t")) onePageOracle ["link", "self"]).2
      = .ok [⟨some 2⟩, ⟨some 2⟩] := by
  have h := (oauth_search_independent onePageOracle ["link", "self"] "t").2
      (by decide) (fun t k => ⟨⟨200, [⟨some 2⟩], none⟩, rfl⟩)
  rw [h]
  rfl

lemma oauthPages_requests (oracle : PageOracle) (t : String) :
    ∀ (r idx : Nat) (after : Option String) (acc : List Child),
      ((oauthPages oracle t r idx after acc).1.length ≤ r) ∧
      (∀ req ∈ (oauthPages oracle t r idx after acc).1,
        req.limit = 100 ∧ req.typ = t) ∧
      (∀ req, (oauthPages oracle t r idx after acc).1.get? 0 = some req →
        req.after = (if isTruthy after then after else none)) ∧
      (∀ (j : Nat) (req : OauthParams),
        (oauthPages oracle t r idx after acc).1.get? (j + 1) = some req →
        ∃ pg, oracle (idx + j) = .ok pg ∧ pg.status = 200 ∧
          isTruthy pg.after = true ∧ req.after = pg.after) := by
  intro r
  induction r with
  | zero =>
    intro idx after acc
    refine ⟨by simp [oauthPages], by simp [oauthPages], ?_, ?_⟩
    · intro req h
      simp [oauthPages] at h
    · intro j req h
      simp [oauthPages] at h
  | succ r ih =>
    intro idx after acc
    rcases horacle : oracle idx with e | pg
    · have hsh : oauthPages oracle t (r + 1) idx after acc
          = ([⟨100, t, if isTruthy after then after else none⟩], .error e) := by
        simp [oauthPages, horacle]
      rw [hsh]
      refine ⟨by simp, ?_, ?_, ?_⟩
      · intro req hreq
        rw [List.mem_singleton] at hreq
        subst hreq
        exact ⟨rfl, rfl⟩
      · intro req hreq
        rw [List.get?_cons_zero] at hreq
        cases hreq
        rfl
      · intro j req hreq
        rw [List.get?_cons_succ] at hreq
        simp at hreq
    · by_cases hst : (pg.status != 200) = true
      · have hsh : oauthPages oracle t (r + 1) idx after acc
            = ([⟨100, t, if isTruthy after then after else none⟩], .ok acc) := by
          simp [oauthPages, horacle, hst]
        rw [hsh]
        refine ⟨by simp, ?_, ?_, ?_⟩
        · intro req hreq
          rw [List.mem_singleton] at hreq
          subst hreq
          exact ⟨rfl, rfl⟩
        · intro req hreq
          rw [List.get?_cons_zero] at hreq
          cases hreq
          rfl
        · intro j req hreq
          rw [List.get?_cons_succ] at hreq
          simp at hreq
      · have h200 : pg.status = 200 := by
          simpa using hst
        by_cases haf : isTruthy pg.after = true
        · have hsh : oauthPages oracle t (r + 1) idx after acc
              = (⟨100, t, if isTruthy after then after else none⟩ ::
                  (oauthPages oracle t r (idx + 1) pg.after (acc ++ pg.children)).1,
                 (oauthPages oracle t r (idx + 1) pg.after (acc ++ pg.children)).2) := by
            simp [oauthPages, horacle, hst, haf]
          rw [hsh]
          obtain ⟨ihlen, ihmem, ihhead, ihtail⟩ := ih (idx + 1) pg.after (acc ++ pg.children)
          refine ⟨?_, ?_, ?_, ?_⟩
          · rw [List.length_cons]
            omega
          · intro req hreq
            rcases List.mem_cons.mp hreq with h | h
            · subst h
              exact ⟨rfl, rfl⟩
            · exact ihmem req h
          · intro req hreq
            rw [List.get?_cons_zero] at hreq
            cases hreq
            rfl
          · intro j req hreq
            rw [List.get?_cons_succ] at hreq
            cases j with
            | zero =>
              have hafter := ihhead req hreq
              rw [if_pos haf] at hafter
              exact ⟨pg, by simpa using horacle, h200, haf, hafter⟩
            | succ j' =>
              obtain ⟨pg', h1, h2, h3, h4⟩ := ihtail j' req hreq
              refine ⟨pg', ?_, h2, h3, h4⟩
              have hidx : idx + (j' + 1) = idx + 1 + j' := by omega
              rw [hidx]
              exact h1
        · have hsh : oauthPages oracle t (r + 1) idx after acc
              = ([⟨100, t, if isTruthy after then after else none⟩],
                 .ok (acc ++ pg.children)) := by
            simp [oauthPages, horacle, hst, haf]
          rw [hsh]
          refine ⟨by simp, ?_, ?_, ?_⟩
          · intro req hreq
            rw [List.mem_singleton] at hreq
            subst hreq
            exact ⟨rfl, rfl⟩
          · intro req hreq
            rw [List.get?_cons_zero] at hreq
            cases hreq
            rfl
          · intro j req hreq
            rw [List.get?_cons_succ] at hreq
            simp at hreq

/-- Claim C7: for every item type, at most 6 requests are issued, each
asking for at most 100 items; request `j + 1` exists only when page `j`
came back with status 200 and a truthy continuation cursor, and it
carries exactly that cursor (so the loop follows the cursor and stops
early on a missing cursor or a non-success status). -/
theorem oauth_pagination (oracle : PageOracle) (t : String) :
    ((oauthPages oracle t 6 0 none []).1.length ≤ 6) ∧
    (∀ req ∈ (oauthPages oracle t 6 0 none []).1,
      req.limit = 100 ∧ req.typ = t) ∧
    (∀ (j : Nat) (req : OauthParams),
      (oauthPages oracle t 6 0 none []).1.get? (j + 1) = some req →
      ∃ pg, oracle j = .ok pg ∧ pg.status = 200 ∧ isTruthy pg.after = true ∧
        req.after = pg.after) := by
  obtain ⟨h1, h2, _, h4⟩ := oauthPages_requests oracle t 6 0 none []
  refine ⟨h1, h2, ?_⟩
  intro j req hreq
  simpa using h4 j req hreq

/-- Witness for C7: in the always-cursor environment the second request
of a type carries the cursor of the first page. -/
theorem oauth_pagination_witness :
    ∃ pg, cursorOracle 0 = .ok pg ∧ pg.status = 200 ∧ isTruthy pg.after = true ∧
      (OauthParams.mk 100 "link" (some "c")).after = pg.after :=
  (oauth_pagination cursorOracle "link").2.2 0 ⟨100, "link", some "c"⟩ (by decide)

end RedditBot
